import Mathlib

/-!
Verification of the `newsscraper` pipeline core (STAGE 4/5 of
`main_orchestrator.py`, plus `cluster_stories` and the analysis-engine
selection in `config.py`) against its natural-language specification.

The Python code is shallowly embedded: each stateful loop becomes a
recursive Lean function over explicit state, machine integers become `Nat`
(no overflow is relevant: Python integers are unbounded), wall-clock time
becomes an explicit natural-number timestamp threaded through the state,
and the external analysis engine becomes an oracle parameter giving each
batch's call outcome.
-/

/-! ## Data model

`AnalysisResult` models one element of the JSON list returned by a
successful engine call.  The Python code reads the fields with
`dict.get(...)` (absent keys become `None`), except `story_index` which is
accessed directly; so every field other than `story_index` is an `Option`.
-/

structure AnalysisResult where
  story_index : Nat
  canonical_title : Option String
  summary : Option String
  sentiment : Option String
  key_entities : Option (List String)
  suggested_category : Option String
deriving DecidableEq

/-- An article dict, restricted to the keys the STAGE 4/5 code reads.
`article_id` and `source_domain` are abstracted to numbers (uuid strings
and domain strings are only ever compared/sorted), `published_at` to an
optional number (ISO-8601 strings compare lexicographically, i.e.
order-isomorphically to timestamps), `none` meaning absent/falsy. -/
structure Article where
  article_id : Nat
  title : String
  full_text : String
  published_at : Option Nat
  source_domain : Nat
deriving DecidableEq

/-- One `story_payloads` entry built in STAGE 4:
`{"story_index": i, "text_for_llm": combined_text, "original_bucket": story_bucket}`. -/
structure StoryPayload where
  story_index : Nat
  text_for_llm : String
  original_bucket : List Article
deriving DecidableEq

/-! ## Token-budgeted batcher

STAGE 4 greedy batching loop of `main_orchestrator.py` (building
`list_of_batches`).  The tokenizer `len(encoding.encode(...))` is
abstracted to a function `tok : α → Nat`; the loop itself is translated
verbatim.  A batch is a pair `(payloads, token_count)` exactly as the code
appends `(current_batch, current_batch_tokens)` tuples. -/

def batchLoop {α : Type} (tok : α → Nat) (C : Nat) :
    List α → List α → Nat → List (List α × Nat) → List (List α × Nat)
  | [], cur, curTok, acc =>
      -- `if current_batch: list_of_batches.append((current_batch, current_batch_tokens))`
      if cur.isEmpty then acc else acc ++ [(cur, curTok)]
  | p :: rest, cur, curTok, acc =>
      let n := tok p
      -- `if current_batch and current_batch_tokens + num_tokens > LLM_MAX_TOKENS_PER_CALL`
      if !cur.isEmpty && decide (C < curTok + n) then
        batchLoop tok C rest [p] n (acc ++ [(cur, curTok)])
      else
        batchLoop tok C rest (cur ++ [p]) (curTok + n) acc

/-- The full batching pass over `story_payloads`. -/
def makeBatches {α : Type} (tok : α → Nat) (C : Nat) (ps : List α) :
    List (List α × Nat) :=
  batchLoop tok C ps [] 0 []

/-! ## Similarity clusterer

`cluster_stories` of `main_orchestrator.py`.  The sentence-transformer
embedding and cosine similarity are external numerics; the clusterer is
parametrised by the decided comparison `simGE i j` standing for
`similarity_matrix[i][j] >= threshold` (a symmetric matrix diagonal-free
use: only pairs with `i < j` are ever consulted).  The `visited` array and
the double loop are translated directly, at the level of article indices. -/

def clusterLoop (simGE : Nat → Nat → Bool) (n : Nat) :
    Nat → Nat → (Nat → Bool) → List (List Nat)
  | 0, _, _ => []
  | fuel + 1, i, visited =>
    if i < n then
      if visited i then clusterLoop simGE n fuel (i + 1) visited
      else
        -- `current_cluster_indices = [i]`, then the inner scan over `j > i`,
        -- marking every added index (and `i` itself) visited
        (i :: (List.range n).filter (fun j => decide (i < j) && !visited j && simGE i j)) ::
          clusterLoop simGE n fuel (i + 1)
            (fun k => visited k ||
              decide (k ∈ i :: (List.range n).filter
                (fun j => decide (i < j) && !visited j && simGE i j)))
    else []

/-- The whole grouping loop of `cluster_stories`, starting at index 0 with
nothing visited.  `fuel = n` bounds the remaining iterations of
`for i in range(len(articles))` structurally; the loop body never runs
with `i ≥ n`, so `n` units are exactly enough. -/
def clusterIndices (n : Nat) (simGE : Nat → Nat → Bool) : List (List Nat) :=
  clusterLoop simGE n n 0 (fun _ => false)

/-- The function `cluster_stories` itself: the `len < 2` early return (each article its
own singleton bucket, no model is loaded), else the grouping loop with
`cluster_articles = [articles[k] for k in current_cluster_indices]`. -/
def cluster_stories {α : Type} (articles : List α) (simGE : Nat → Nat → Bool) :
    List (List α) :=
  if articles.length < 2 then articles.map (fun a => [a])
  else (clusterIndices articles.length simGE).map (fun c => c.filterMap (articles.get? ·))

/-- Specification-side clustering, written from the spec's words (§4.2 of
the spec: seed-only rule on the list of still-unassigned articles): the
first unassigned article seeds a bucket, every later unassigned article
similar to the seed joins it, the rest carry over. Used to state that the
code's visited-array loop implements exactly this rule. -/
def seedClusters (simGE : Nat → Nat → Bool) : List Nat → List (List Nat)
  | [] => []
  | i :: rest =>
      (i :: rest.filter (fun j => simGE i j)) ::
        seedClusters simGE (rest.filter (fun j => !simGE i j))
termination_by l => l.length
decreasing_by simp only [List.length_cons]; exact Nat.lt_succ_of_le (List.length_filter_le _ _)

/-! ## Analysis engines (`config.py`)

`mock_analysis_engine(article_text)` returns a single flat dict with
`llm_*` keys; the two `random.choice` draws are modelled by an explicit
random stream `pick : Nat → Nat` (draw `k` picks index `pick k % len`),
making the dependence on the unseeded RNG visible.  `analyze_article`
dispatches by name and passes its `**kwargs` through to the engine; a
Python keyword-binding failure (or unknown engine name) raises inside the
`try`, which returns the `{"error": str(e)}` dict.  The `gemini` engine is
an external HTTP call and is out of scope; only the `mock` branch and the
generic error path are needed by the claims. -/

structure MockOutput where
  llm_canonical_title : String
  llm_summary : String
  llm_sentiment : String
  llm_key_entities : List String
  llm_suggested_category : String
deriving DecidableEq

def MOCK_SENTIMENTS : List String := ["Positive", "Neutral", "Negative"]

/-- The list `list(CATEGORICAL_QUERIES.keys())` from `config.py` (dict order =
insertion order). -/
def CATEGORICAL_QUERY_KEYS : List String :=
  ["Mental Health Services", "Regulatory & Policy", "Business & M&A",
   "Substance Use & Opioids", "Behavioral Health:", "Clinic Based",
   "Behavioral Health Companies"]

/-- The list `OUTPUT_CATEGORIES` from `config.py` (the allowed `suggested_category`
vocabulary handed to the real engine's prompt). -/
def OUTPUT_CATEGORIES : List String :=
  ["Behavioral Health", "Regulatory & Policy", "Business & M&A",
   "Substance Use & Opioids", "Technology & Innovation", "Healthcare Services",
   "Public Health", "Insurance & Coverage", "Research & Studies",
   "Social Media", "Community Impact"]

def mock_analysis_engine (pick : Nat → Nat) (article_text : String) : MockOutput :=
  { llm_canonical_title := "This is a Mock Canonical Title for the Story"
    llm_summary := "This is a mock summary of the article."
    llm_sentiment := MOCK_SENTIMENTS.getD (pick 0 % MOCK_SENTIMENTS.length) ""
    llm_key_entities := ["Mock Company A", "Mock Person B"]
    llm_suggested_category :=
      CATEGORICAL_QUERY_KEYS.getD (pick 1 % CATEGORICAL_QUERY_KEYS.length) "" }

/-- The Python value returned by `analyze_article`: a JSON list of results,
an error dict `{"error": msg}`, or the mock's flat dict. -/
inductive EngineReturn where
  | resultList (rs : List AnalysisResult)
  | errDict (msg : String)
  | mockDict (m : MockOutput)
deriving DecidableEq

/-- Model of `analyze_article(engine_name, **kwargs)` with `kwargs` as a name/value
list.  `mock_analysis_engine` accepts exactly one keyword `article_text`;
any other keyword set raises `TypeError`, caught by the surrounding
`try/except` which returns `{"error": str(e)}`.  An unknown engine name
raises `KeyError`, caught the same way. -/
def analyze_article (pick : Nat → Nat) (engine_name : String)
    (kwargs : List (String × String)) : EngineReturn :=
  if engine_name = "mock" then
    match kwargs with
    | [(k, t)] =>
        if k = "article_text" then .mockDict (mock_analysis_engine pick t)
        else .errDict "TypeError: unexpected keyword argument"
    | _ => .errDict "TypeError: unexpected keyword argument"
  else .errDict "engine not modelled or unknown"

/-! ## Rate-limited dispatcher

STAGE 4 loop over `list_of_batches`.  Wall-clock time is a `Nat` of
seconds carried in the state; each batch comes with the real time elapsed
since the previous iteration (`delay`) and with the oracle outcome of its
`config.analyze_article` call: `.ok rs` when the call returned a Python
list `rs`, `.err` when it returned a non-list (the error-dict branch) or
raised (the `except` branch) — the window/result handling is identical for
those two.  `none` as the overall result models the uncaught `IndexError`
from `request_history[0][0]` on an empty deque, which aborts the run. -/

inductive CallOutcome where
  | ok (rs : List AnalysisResult)
  | err
deriving DecidableEq

structure BatchItem where
  delay : Nat
  tokens : Nat
  outcome : CallOutcome
deriving DecidableEq

structure DState where
  now : Nat
  history : List (Nat × Nat)
  tokensInWindow : Nat
  results : List (Nat × AnalysisResult)
deriving DecidableEq

/-- The loop `while request_history and now - request_history[0][0] > 60: popleft`,
updating `tokens_in_window` alongside. -/
def evictLoop (now : Nat) : List (Nat × Nat) → Nat → List (Nat × Nat) × Nat
  | [], tw => ([], tw)
  | (ts, tk) :: rest, tw =>
      if 60 < now - ts then evictLoop now rest (tw - tk)
      else ((ts, tk) :: rest, tw)

/-- Assignment `all_llm_results[result['story_index']] = result` for one result:
Python dict assignment (overwrite in place, else append). -/
def dictInsert (k : Nat) (v : AnalysisResult) :
    List (Nat × AnalysisResult) → List (Nat × AnalysisResult)
  | [] => [(k, v)]
  | (k', v') :: rest =>
      if k' = k then (k, v) :: rest else (k', v') :: dictInsert k v rest

/-- The merge `for result in analysis_results: all_llm_results[...] = result`. -/
def mergeResults (m : List (Nat × AnalysisResult)) (rs : List AnalysisResult) :
    List (Nat × AnalysisResult) :=
  rs.foldl (fun m' r => dictInsert r.story_index r m') m

/-- First-match dict lookup (keys are unique under `dictInsert`). -/
def dictGet? (k : Nat) : List (Nat × AnalysisResult) → Option AnalysisResult
  | [] => none
  | (k', v) :: rest => if k' = k then some v else dictGet? k rest

/-- The success/failure tail of one loop iteration: on a list result,
append `(now, batch_tokens)` to the window and merge the results; on a
non-list/raise, `continue` with nothing changed. -/
def finishBatch (hist : List (Nat × Nat)) (tw : Nat) (now : Nat)
    (res : List (Nat × AnalysisResult)) (b : BatchItem) : DState :=
  match b.outcome with
  | .ok rs => ⟨now, hist ++ [(now, b.tokens)], tw + b.tokens, mergeResults res rs⟩
  | .err => ⟨now, hist, tw, res⟩

/-- One iteration of the STAGE 4 dispatch loop: evict, rate-check, possibly
sleep `60 - (now - request_history[0][0]) + 1` and re-evict, then call the
engine.  `none` = the `IndexError` crash when the wait branch reads the
first element of an empty `request_history`. -/
def dispatchStep (L : Nat) (st : DState) (b : BatchItem) : Option DState :=
  let now := st.now + b.delay
  let ev := evictLoop now st.history st.tokensInWindow
  if L < ev.2 + b.tokens then
    match ev.1 with
    | [] => none
    | (oldTs, _) :: _ =>
        let now2 := now + (60 - (now - oldTs) + 1)
        let ev2 := evictLoop now2 ev.1 ev.2
        some (finishBatch ev2.1 ev2.2 now2 st.results b)
  else some (finishBatch ev.1 ev.2 now st.results b)

/-- The whole `for i, (batch, batch_tokens) in enumerate(list_of_batches)`
loop. -/
def dispatchAll (L : Nat) : List BatchItem → DState → Option DState
  | [], st => some st
  | b :: rest, st =>
      match dispatchStep L st b with
      | none => none
      | some st' => dispatchAll L rest st'

/-- Initial state: `request_history = deque()`, `tokens_in_window = 0`,
`all_llm_results = {}` at time zero. -/
def initDState : DState := ⟨0, [], 0, []⟩

/-- Rate-limit wait-step safety precondition: if the budget check fails
after eviction, the window is non-empty (so `request_history[0][0]` does
not crash). -/
def waitSafe (L : Nat) (st : DState) (b : BatchItem) : Prop :=
  L < (evictLoop (st.now + b.delay) st.history st.tokensInWindow).2 + b.tokens →
    (evictLoop (st.now + b.delay) st.history st.tokensInWindow).1 ≠ []

/-! ## Record assembler and STAGE 5 output (`main_orchestrator.py`)

`story_bucket.sort(key=lambda x: len(x.get('full_text','')), reverse=True)`
is Python's stable sort, descending by text length.  A stable sort by a
key is uniquely determined, so it is embedded as a stable insertion sort:
each article is inserted after all already-placed articles of greater or
equal key.  Fresh `uuid.uuid4()` story ids are modelled by an id supply
`ids : Nat → Nat` consulted at the payload's `story_index`. -/

def insertLe {α : Type} (le : α → α → Bool) (a : α) : List α → List α
  | [] => [a]
  | b :: bs => if le b a then b :: insertLe le a bs else a :: b :: bs

def stableSortBy {α : Type} (le : α → α → Bool) (l : List α) : List α :=
  l.foldl (fun acc a => insertLe le a acc) []

/-- Descending by `len(full_text)`: keep `b` before `a` while
`len(a) ≤ len(b)`. -/
def sortBucket (bucket : List Article) : List Article :=
  stableSortBy (fun b a => a.full_text.length ≤ b.full_text.length) bucket

/-- Model of `sorted(list(set(...)))` over the bucket's source domains. -/
def sortedDedup (l : List Nat) : List Nat :=
  stableSortBy (fun b a => b ≤ a) l.dedup

/-- Model of the earliest-date pick: `min` over the truthy `published_at` values of the bucket, `default=None`. -/
def earliestPub (bucket : List Article) : Option Nat :=
  (bucket.filterMap Article.published_at).min?

/-- One `story_record` dict of the STAGE 4 assembly loop. -/
structure StoryRecord where
  story_id : Nat
  canonical_title : String
  summary : Option String
  sentiment : Option String
  key_entities : Option (List String)
  suggested_category : Option String
  first_seen_at : Option Nat
  article_ids : List Nat
  source_domains : List Nat
  article_count : Nat
deriving DecidableEq

/-- The record built for one payload whose `story_index` has a result.
`none` only for an empty bucket (where the Python `story_bucket[0]` would
crash; buckets coming out of the clusterer always contain their seed). -/
def makeRecord (id_ : Nat) (r : AnalysisResult) (bucket : List Article) :
    Option StoryRecord :=
  match sortBucket bucket with
  | [] => none
  | rep :: _ =>
      some
        { story_id := id_
          canonical_title := r.canonical_title.getD rep.title
          summary := r.summary
          sentiment := r.sentiment
          key_entities := r.key_entities
          suggested_category := r.suggested_category
          first_seen_at := earliestPub bucket
          article_ids := (sortBucket bucket).map Article.article_id
          source_domains := sortedDedup ((sortBucket bucket).map Article.source_domain)
          article_count := bucket.length }

/-- All fields of a `StoryRecord` except the freshly generated `story_id`. -/
def StoryRecord.core (s : StoryRecord) :
    String × Option String × Option String × Option (List String) × Option String
      × Option Nat × List Nat × List Nat × Nat :=
  (s.canonical_title, s.summary, s.sentiment, s.key_entities,
   s.suggested_category, s.first_seen_at, s.article_ids, s.source_domains,
   s.article_count)

/-- The `for payload in story_payloads` assembly loop: always extend
`final_articles` with the bucket; build a `StoryRecord` only when the
payload's `story_index` has an analysis result. -/
def assembleLoop (results : List (Nat × AnalysisResult)) (ids : Nat → Nat) :
    List StoryPayload → List Article × List StoryRecord
  | [] => ([], [])
  | p :: ps =>
      let rest := assembleLoop results ids ps
      match dictGet? p.story_index results with
      | some r =>
          match makeRecord (ids p.story_index) r p.original_bucket with
          | some sr => (p.original_bucket ++ rest.1, sr :: rest.2)
          | none => (p.original_bucket ++ rest.1, rest.2)
      | none => (p.original_bucket ++ rest.1, rest.2)

/-- STAGE 4 assembly including its `if all_llm_results:` guard: with an
empty result dict, the loop is skipped entirely and both `final_articles`
and `final_stories` stay empty. -/
def assembleStage (results : List (Nat × AnalysisResult)) (ids : Nat → Nat)
    (payloads : List StoryPayload) : List Article × List StoryRecord :=
  if results.isEmpty then ([], []) else assembleLoop results ids payloads

/-- The `combined_text` string joining per-article title/full-text blocks with
`\n\n---\n\n`. -/
def combinedText (bucket : List Article) : String :=
  String.intercalate "\n\n---\n\n"
    (bucket.map (fun a => "Title: " ++ a.title ++ "\n\n" ++ a.full_text))

/-- The `story_payloads` construction from the clusters (`for i, story_bucket
in enumerate(story_clusters)`). -/
def buildPayloads (clusters : List (List Article)) : List StoryPayload :=
  clusters.enum.map (fun p =>
    { story_index := p.1, text_for_llm := combinedText p.2, original_bucket := p.2 })

/-- STAGE 5: both output files are written only under `if final_stories:`;
`none` = the file is not produced. -/
def stage5Outputs (fa : List Article) (fs : List StoryRecord) :
    Option (List Article) × Option (List StoryRecord) :=
  if fs.isEmpty then (none, none) else (some fa, some fs)

/-- STAGE 4 assembly followed by STAGE 5 reporting, as a function of the
clusters, the dispatcher's result dict and the id supply. -/
def runStage45 (clusters : List (List Article))
    (results : List (Nat × AnalysisResult)) (ids : Nat → Nat) :
    Option (List Article) × Option (List StoryRecord) :=
  let fafs := assembleStage results ids (buildPayloads clusters)
  stage5Outputs fafs.1 fafs.2

/-! ## Theorems: token-budgeted batcher (claims C4, C5) -/

theorem batchLoop_mem_le {α : Type} (tok : α → Nat) (C : Nat) :
    ∀ (ps cur : List α) (curTok : Nat) (acc : List (List α × Nat)),
      (1 < cur.length → curTok ≤ C) →
      (∀ b ∈ acc, 1 < b.1.length → b.2 ≤ C) →
      ∀ b ∈ batchLoop tok C ps cur curTok acc, 1 < b.1.length → b.2 ≤ C := by
  intro ps
  induction ps with
  | nil =>
      intro cur curTok acc hcur hacc b hb
      simp only [batchLoop] at hb
      split at hb
      · exact hacc b hb
      · rcases List.mem_append.mp hb with h | h
        · exact hacc b h
        · simp only [List.mem_singleton] at h
          subst h
          exact hcur
  | cons p ps ih =>
      intro cur curTok acc hcur hacc b hb
      simp only [batchLoop] at hb
      split at hb
      · next hcond =>
          refine ih [p] (tok p) (acc ++ [(cur, curTok)]) (by simp) ?_ b hb
          intro b' hb'
          rcases List.mem_append.mp hb' with h | h
          · exact hacc b' h
          · simp only [List.mem_singleton] at h
            subst h
            exact hcur
      · next hcond =>
          simp only [Bool.and_eq_true, Bool.not_eq_true', decide_eq_true_eq, not_and,
            Bool.not_eq_false] at hcond
          refine ih (cur ++ [p]) (curTok + tok p) acc ?_ hacc b hb
          intro hlen
          by_cases hemp : cur.isEmpty
          · rw [List.isEmpty_iff] at hemp
            subst hemp
            simp at hlen
          · have := hcond (by simpa using hemp)
            omega

theorem batchLoop_flatten {α : Type} (tok : α → Nat) (C : Nat) :
    ∀ (ps cur : List α) (curTok : Nat) (acc : List (List α × Nat)),
      ((batchLoop tok C ps cur curTok acc).map Prod.fst).flatten
        = (acc.map Prod.fst).flatten ++ cur ++ ps := by
  intro ps
  induction ps with
  | nil =>
      intro cur curTok acc
      simp only [batchLoop]
      split
      · next hemp =>
          rw [List.isEmpty_iff] at hemp
          subst hemp
          simp
      · simp
  | cons p ps ih =>
      intro cur curTok acc
      simp only [batchLoop]
      split
      · rw [ih]
        simp
      · rw [ih]
        simp

/-- Claim C4: every batch produced by the STAGE 4 batching loop that
contains more than one payload has `token_count ≤ C`; a single-payload
batch may exceed `C` (witnessed by tokenizing `[5]` against ceiling 1);
and no payload is ever dropped or split (the batches concatenate back to
the input). -/
theorem batch_token_ceiling :
    (∀ (α : Type) (tok : α → Nat) (C : Nat) (ps : List α)
       (b : List α × Nat), b ∈ makeBatches tok C ps → 1 < b.1.length → b.2 ≤ C)
    ∧ (([5], 5) ∈ makeBatches (fun x => x) 1 [5] ∧ 1 < 5)
    ∧ (∀ (α : Type) (tok : α → Nat) (C : Nat) (ps : List α),
        ((makeBatches tok C ps).map Prod.fst).flatten = ps) := by
  refine ⟨?_, ⟨?_, by omega⟩, ?_⟩
  · intro α tok C ps b hb
    exact batchLoop_mem_le tok C ps [] 0 [] (by simp) (by simp) b hb
  · simp [makeBatches, batchLoop]
  · intro α tok C ps
    simpa using batchLoop_flatten tok C ps [] 0 []

/-- Witness for C4: the two-payload batch `([3,4],7)` produced under
ceiling 10 indeed satisfies `7 ≤ 10`. -/
theorem batch_token_ceiling_witness : (7 : Nat) ≤ 10 :=
  batch_token_ceiling.1 Nat (fun x => x) 10 [3, 4, 5] ([3, 4], 7)
    (by decide) (by decide)

/-- Claim C5: concatenating the payload sequences of the batcher's output
batches, in order, reproduces the original payload sequence exactly. -/
theorem batch_concat_preserves_payloads :
    ∀ (α : Type) (tok : α → Nat) (C : Nat) (ps : List α),
      ((makeBatches tok C ps).map Prod.fst).flatten = ps := by
  intro α tok C ps
  simpa using batchLoop_flatten tok C ps [] 0 []

/-! ## Theorems: rate-limited dispatcher (claims C2, C6, C10) -/

theorem evictLoop_suffix (now : Nat) :
    ∀ (h : List (Nat × Nat)) (tw : Nat), (evictLoop now h tw).1 <:+ h := by
  intro h
  induction h with
  | nil => intro tw; exact List.suffix_rfl
  | cons e rest ih =>
      intro tw
      rcases e with ⟨ts, tk⟩
      simp only [evictLoop]
      split
      · exact (ih (tw - tk)).trans (List.suffix_cons _ _)
      · exact List.suffix_rfl

theorem evictLoop_le (now : Nat) :
    ∀ (h : List (Nat × Nat)) (tw : Nat), (evictLoop now h tw).2 ≤ tw := by
  intro h
  induction h with
  | nil => intro tw; exact Nat.le_refl tw
  | cons e rest ih =>
      intro tw
      rcases e with ⟨ts, tk⟩
      simp only [evictLoop]
      split
      · exact (ih (tw - tk)).trans (Nat.sub_le _ _)
      · exact Nat.le_refl tw

theorem evictLoop_sum (now : Nat) :
    ∀ (h : List (Nat × Nat)) (tw : Nat),
      tw = (h.map Prod.snd).sum →
      (evictLoop now h tw).2 = (((evictLoop now h tw).1).map Prod.snd).sum := by
  intro h
  induction h with
  | nil => intro tw htw; simpa [evictLoop] using htw
  | cons e rest ih =>
      intro tw htw
      rcases e with ⟨ts, tk⟩
      simp only [List.map_cons, List.sum_cons] at htw
      simp only [evictLoop]
      split
      · exact ih (tw - tk) (by omega)
      · simpa using htw

/-- Claim C10: an oversized batch (`token_count > L`) arriving while the
rate window is empty — e.g. as the first batch of the run — makes the wait
branch read the head of the empty `request_history` deque: the run aborts
with an unhandled `IndexError` (the batch is neither dispatched nor
skipped).  Conversely the wait step is total whenever the window is
non-empty at every failing budget check (`waitSafe`). -/
theorem rate_wait_empty_window_crash :
    (∀ (L : Nat) (b : BatchItem), L < b.tokens → dispatchAll L [b] initDState = none)
    ∧ (∀ (L : Nat) (st : DState) (b : BatchItem),
        waitSafe L st b → ∃ st', dispatchStep L st b = some st') := by
  constructor
  · intro L b hL
    simp [dispatchAll, dispatchStep, initDState, evictLoop, hL]
  · intro L st b hsafe
    unfold dispatchStep
    by_cases hc : L < (evictLoop (st.now + b.delay) st.history st.tokensInWindow).2 + b.tokens
    · have hne := hsafe hc
      rcases hhist : (evictLoop (st.now + b.delay) st.history st.tokensInWindow).1 with _ | ⟨⟨oldTs, oldTk⟩, tl⟩
      · exact absurd hhist hne
      · simp only [hhist, if_pos hc]
        exact ⟨_, rfl⟩
    · simp only [if_neg hc]
      exact ⟨_, rfl⟩

/-- Witness for C10: with `L = 10` and a first batch of 100 tokens the run
crashes, and a batch fitting the budget from the empty initial state is
wait-safe and steps successfully. -/
theorem rate_wait_empty_window_crash_witness :
    dispatchAll 10 [⟨0, 100, .err⟩] initDState = none
    ∧ ∃ st', dispatchStep 10 initDState ⟨0, 5, .err⟩ = some st' := by
  constructor
  · exact rate_wait_empty_window_crash.1 10 ⟨0, 100, .err⟩ (by decide)
  · exact rate_wait_empty_window_crash.2 10 initDState ⟨0, 5, .err⟩
      (by intro h; exact absurd h (by decide))

/-- Claim C6: a batch whose analysis call returns a non-list or raises is
skipped: provided the iteration reaches the call at all (`waitSafe`; the
call cannot error before it happens), the step completes without an
exception, appends nothing to the rate window (the remaining window is a
suffix of the old one and the token counter does not grow), leaves the
result mapping — hence every previously merged result — untouched, and the
loop continues with the next batch from the resulting state. -/
theorem dispatcher_skips_failed_batch :
    ∀ (L : Nat) (st : DState) (b : BatchItem) (rest : List BatchItem),
      b.outcome = .err → waitSafe L st b →
      ∃ st', dispatchStep L st b = some st'
        ∧ st'.results = st.results
        ∧ st'.history <:+ st.history
        ∧ st'.tokensInWindow ≤ st.tokensInWindow
        ∧ dispatchAll L (b :: rest) st = dispatchAll L rest st' := by
  intro L st b rest herr hsafe
  unfold dispatchStep
  by_cases hc : L < (evictLoop (st.now + b.delay) st.history st.tokensInWindow).2 + b.tokens
  · have hne := hsafe hc
    rcases hhist : (evictLoop (st.now + b.delay) st.history st.tokensInWindow).1 with _ | ⟨⟨oldTs, oldTk⟩, tl⟩
    · exact absurd hhist hne
    · simp only [hhist, if_pos hc]
      refine ⟨_, rfl, ?_, ?_, ?_, ?_⟩
      · simp [finishBatch, herr]
      · simp only [finishBatch, herr]
        refine (evictLoop_suffix _ _ _).trans ?_
        rw [← hhist]
        exact evictLoop_suffix _ _ _
      · simp only [finishBatch, herr]
        exact (evictLoop_le _ _ _).trans (evictLoop_le _ _ _)
      · simp only [dispatchAll]
        rw [dispatchStep]
        simp only [hhist, if_pos hc]
  · simp only [if_neg hc]
    refine ⟨_, rfl, ?_, ?_, ?_, ?_⟩
    · simp [finishBatch, herr]
    · simp only [finishBatch, herr]
      exact evictLoop_suffix _ _ _
    · simp only [finishBatch, herr]
      exact evictLoop_le _ _ _
    · simp only [dispatchAll]
      rw [dispatchStep]
      simp only [if_neg hc]

/-- Witness for C6: a failing batch from the empty initial state is
skipped with everything preserved. -/
theorem dispatcher_skips_failed_batch_witness :
    ∃ st', dispatchStep 10 initDState ⟨0, 5, .err⟩ = some st'
      ∧ st'.results = initDState.results
      ∧ st'.history <:+ initDState.history
      ∧ st'.tokensInWindow ≤ initDState.tokensInWindow
      ∧ dispatchAll 10 [⟨0, 5, .err⟩] initDState = dispatchAll 10 [] st' :=
  dispatcher_skips_failed_batch 10 initDState ⟨0, 5, .err⟩ [] rfl
    (by intro h; exact absurd h (by decide))

/-- Claim C2 counterexample: with `L = 100` and batches of 30, 30, 30, 60
tokens submitted at seconds 0, 10, 20, 25 (all calls succeed), the fourth
batch triggers the wait branch; after sleeping just long enough for the
oldest entry to age out the loop re-evicts but dispatches **without
rechecking**, so immediately after that submission is accounted the
trailing 60-second window holds entries of 30, 30 and 60 tokens — a sum of
120 > 100, refuting the claimed invariant at this concrete input. -/
theorem rate_window_limit_violation_cex :
    (dispatchAll 100
        [⟨0, 30, .ok []⟩, ⟨10, 30, .ok []⟩, ⟨10, 30, .ok []⟩, ⟨5, 60, .ok []⟩]
        initDState
      = some ⟨61, [(10, 30), (20, 30), (61, 60)], 120, []⟩)
    ∧ ((([(10, 30), (20, 30), (61, 60)] : List (Nat × Nat)).map Prod.snd).sum = 120)
    ∧ (([(10, 30), (20, 30), (61, 60)] : List (Nat × Nat)).all
        (fun e => decide (61 - e.1 ≤ 60)) = true)
    ∧ (100 < 120) := by
  refine ⟨by decide, by decide, by decide, by decide⟩

/-- Claim C2 as amended: the window invariant holds for every successful
submission whose budget check passes without entering the wait branch —
after accounting it, the `tokens_in_window` counter still equals the sum
of the window entries and is at most `L`.  (A submission that enters the
single wait-and-re-evict pass is dispatched without a recheck and can
leave the window sum above `L`, as the counterexample shows.) -/
theorem rate_window_no_wait_compliance :
    ∀ (L : Nat) (st : DState) (b : BatchItem) (rs : List AnalysisResult),
      b.outcome = .ok rs →
      st.tokensInWindow = (st.history.map Prod.snd).sum →
      (evictLoop (st.now + b.delay) st.history st.tokensInWindow).2 + b.tokens ≤ L →
      ∃ st', dispatchStep L st b = some st'
        ∧ st'.tokensInWindow = (st'.history.map Prod.snd).sum
        ∧ st'.tokensInWindow ≤ L := by
  intro L st b rs hok hsum hle
  unfold dispatchStep
  have hc : ¬ L < (evictLoop (st.now + b.delay) st.history st.tokensInWindow).2 + b.tokens :=
    Nat.not_lt.mpr hle
  simp only [if_neg hc]
  refine ⟨_, rfl, ?_, ?_⟩
  · simp only [finishBatch, hok]
    rw [evictLoop_sum (st.now + b.delay) st.history st.tokensInWindow hsum]
    simp
  · simp only [finishBatch, hok]
    exact hle

/-- Witness for the amended C2: a 5-token batch against `L = 10` from the
empty initial window is accounted with the window sum at 5 ≤ 10. -/
theorem rate_window_no_wait_compliance_witness :
    ∃ st', dispatchStep 10 initDState ⟨0, 5, .ok []⟩ = some st'
      ∧ st'.tokensInWindow = (st'.history.map Prod.snd).sum
      ∧ st'.tokensInWindow ≤ 10 :=
  rate_window_no_wait_compliance 10 initDState ⟨0, 5, .ok []⟩ [] rfl (by decide) (by decide)

/-! ## Theorems: similarity clusterer (claims C7, C8) -/

theorem filter_range_split (n i : Nat) (hi : i < n) (q : Nat → Bool) (hq : q i = true) :
    (List.range n).filter (fun k => decide (i ≤ k) && q k)
      = i :: (List.range n).filter (fun k => decide (i < k) && q k) := by
  obtain ⟨m, rfl⟩ : ∃ m, n = (i + 1) + m := ⟨n - (i + 1), by omega⟩
  rw [List.range_add, List.filter_append, List.filter_append, List.range_succ,
    List.filter_append, List.filter_append]
  have h1 : (List.range i).filter (fun k => decide (i ≤ k) && q k) = [] := by
    refine List.filter_eq_nil_iff.mpr (fun a ha => ?_)
    have hai := List.mem_range.mp ha
    simp only [Bool.and_eq_true, decide_eq_true_eq]
    rintro ⟨h, -⟩
    omega
  have h2 : (List.range i).filter (fun k => decide (i < k) && q k) = [] := by
    refine List.filter_eq_nil_iff.mpr (fun a ha => ?_)
    have hai := List.mem_range.mp ha
    simp only [Bool.and_eq_true, decide_eq_true_eq]
    rintro ⟨h, -⟩
    omega
  have h3 : [i].filter (fun k => decide (i ≤ k) && q k) = [i] := by
    simp [hq]
  have h4 : [i].filter (fun k => decide (i < k) && q k) = [] := by
    simp
  have h5 : ((List.range m).map (fun x => (i + 1) + x)).filter
        (fun k => decide (i ≤ k) && q k)
      = ((List.range m).map (fun x => (i + 1) + x)).filter
        (fun k => decide (i < k) && q k) := by
    refine List.filter_congr (fun k hk => ?_)
    obtain ⟨x, -, rfl⟩ := List.mem_map.mp hk
    have hle : decide (i ≤ (i + 1) + x) = true := decide_eq_true (by omega)
    have hlt : decide (i < (i + 1) + x) = true := decide_eq_true (by omega)
    rw [hle, hlt]
  rw [h1, h2, h3, h4, h5]
  simp

theorem clusterLoop_eq_seedClusters (simGE : Nat → Nat → Bool) (n : Nat) :
    ∀ (fuel i : Nat) (visited : Nat → Bool), n ≤ i + fuel →
      clusterLoop simGE n fuel i visited
        = seedClusters simGE
            ((List.range n).filter (fun k => decide (i ≤ k) && !visited k)) := by
  intro fuel
  induction fuel with
  | zero =>
      intro i visited hle
      have hfil : (List.range n).filter (fun k => decide (i ≤ k) && !visited k) = [] := by
        refine List.filter_eq_nil_iff.mpr (fun a ha => ?_)
        have hai := List.mem_range.mp ha
        simp only [Bool.and_eq_true, decide_eq_true_eq]
        rintro ⟨h, -⟩
        omega
      rw [hfil]
      simp [clusterLoop, seedClusters]
  | succ fuel ih =>
      intro i visited hle
      by_cases hin : i < n
      · by_cases hv : visited i = true
        · rw [clusterLoop, if_pos hin, if_pos hv, ih (i + 1) visited (by omega)]
          congr 1
          refine List.filter_congr (fun k hk => ?_)
          by_cases hki : k = i
          · subst hki
            simp [hv]
          · have hd : decide (i + 1 ≤ k) = decide (i ≤ k) :=
              decide_eq_decide.mpr (by omega)
            rw [hd]
        · have hv' : visited i = false := by revert hv; cases visited i <;> simp
          rw [clusterLoop, if_pos hin, if_neg (by simp [hv']),
            filter_range_split n i hin (fun k => !visited k) (by simp [hv']),
            seedClusters]
          congr 1
          · congr 1
            rw [List.filter_filter]
            refine List.filter_congr (fun j hj => ?_)
            cases h1 : decide (i < j) <;> cases h2 : visited j <;>
              cases h3 : simGE i j <;> simp [h1, h2, h3]
          · rw [ih (i + 1) _ (by omega)]
            congr 1
            rw [List.filter_filter]
            refine List.filter_congr (fun k hk => ?_)
            have hkn : k < n := List.mem_range.mp hk
            rw [Bool.eq_iff_iff]
            simp only [Bool.and_eq_true, Bool.or_eq_true, Bool.not_eq_true',
              Bool.not_eq_true, decide_eq_true_eq, List.mem_cons, List.mem_filter,
              List.mem_range, Bool.or_eq_false_iff, decide_eq_false_iff_not]
            cases hvk : visited k <;> cases hs : simGE i k <;>
              simp [hvk, hs, hkn] <;> omega
      · have hfil : (List.range n).filter (fun k => decide (i ≤ k) && !visited k) = [] := by
          refine List.filter_eq_nil_iff.mpr (fun a ha => ?_)
          have hai := List.mem_range.mp ha
          simp only [Bool.and_eq_true, decide_eq_true_eq]
          rintro ⟨h, -⟩
          omega
        rw [hfil, clusterLoop, if_neg hin]
        simp [seedClusters]

theorem seedClusters_flatten_perm (simGE : Nat → Nat → Bool) :
    ∀ (f : Nat) (l : List Nat), l.length ≤ f →
      ((seedClusters simGE l).flatten).Perm l := by
  intro f
  induction f with
  | zero =>
      intro l hl
      have : l = [] := List.eq_nil_of_length_eq_zero (by omega)
      subst this
      simp [seedClusters]
  | succ f ih =>
      intro l hl
      match l with
      | [] => simp [seedClusters]
      | i :: rest =>
          rw [seedClusters]
          simp only [List.flatten_cons, List.cons_append]
          refine List.Perm.cons i ?_
          have hrec : ((seedClusters simGE
              (rest.filter (fun j => !simGE i j))).flatten).Perm
                (rest.filter (fun j => !simGE i j)) := by
            refine ih _ ?_
            have := List.length_filter_le (fun j => !simGE i j) rest
            simp only [List.length_cons] at hl
            omega
          exact (List.Perm.append_left _ hrec).trans (List.filter_append_perm _ rest)

theorem seedClusters_pairwise_disjoint (simGE : Nat → Nat → Bool) :
    ∀ (f : Nat) (l : List Nat), l.length ≤ f → l.Nodup →
      (seedClusters simGE l).Pairwise List.Disjoint := by
  intro f
  induction f with
  | zero =>
      intro l hl _
      have : l = [] := List.eq_nil_of_length_eq_zero (by omega)
      subst this
      simp [seedClusters]
  | succ f ih =>
      intro l hl hnd
      match l with
      | [] => simp [seedClusters]
      | i :: rest =>
          rw [seedClusters]
          rw [List.pairwise_cons]
          have hndr : rest.Nodup := (List.nodup_cons.mp hnd).2
          have hni : i ∉ rest := (List.nodup_cons.mp hnd).1
          constructor
          · intro c' hc' x hx hx'
            have hxflat : x ∈ (seedClusters simGE
                (rest.filter (fun j => !simGE i j))).flatten :=
              List.mem_flatten.mpr ⟨c', hc', hx'⟩
            have hxrest : x ∈ rest.filter (fun j => !simGE i j) :=
              (seedClusters_flatten_perm simGE _ _ (Nat.le_refl _)).mem_iff.mp hxflat
            rcases List.mem_cons.mp hx with rfl | hxf
            · exact hni (List.mem_filter.mp hxrest).1
            · have h1 := (List.mem_filter.mp hxf).2
              have h2 := (List.mem_filter.mp hxrest).2
              simp only [Bool.not_eq_true'] at h2
              rw [h1] at h2
              exact Bool.noConfusion h2
          · refine ih _ ?_ (hndr.filter _)
            have := List.length_filter_le (fun j => !simGE i j) rest
            simp only [List.length_cons] at hl
            omega

theorem filterMap_get?_length {α : Type} (articles : List α) :
    ∀ (c : List Nat), (∀ k ∈ c, k < articles.length) →
      (c.filterMap (articles.get? ·)).length = c.length := by
  intro c
  induction c with
  | nil => intro _; rfl
  | cons k c ihc =>
      intro hc
      have hk : k < articles.length := hc k (List.mem_cons_self k c)
      have : articles.get? k = some articles[k] := by
        rw [List.get?_eq_getElem?]
        exact List.getElem?_eq_getElem hk
      simp only [List.filterMap_cons, this, List.length_cons]
      rw [ihc (fun j hj => hc j (List.mem_cons_of_mem _ hj))]

/-- Claim C7: the clusterer's buckets partition the input — at the level
of article indices, the flattened buckets are a permutation of
`range n` (every index in exactly one place) and the buckets are pairwise
disjoint; consequently `cluster_stories` emits every input article exactly
once across its buckets. -/
theorem clusterer_partition (n : Nat) (simGE : Nat → Nat → Bool)
    {α : Type} (articles : List α) :
    ((clusterIndices n simGE).flatten).Perm (List.range n)
    ∧ (clusterIndices n simGE).Pairwise List.Disjoint
    ∧ (cluster_stories articles simGE).flatten.length = articles.length := by
  have hbase : ∀ (m : Nat),
      clusterIndices m simGE = seedClusters simGE (List.range m) := by
    intro m
    rw [clusterIndices, clusterLoop_eq_seedClusters simGE m m 0 _ (by omega)]
    congr 1
    refine (List.filter_congr (fun k _ => ?_)).trans (List.filter_true _)
    simp
  refine ⟨?_, ?_, ?_⟩
  · rw [hbase n]
    exact seedClusters_flatten_perm simGE _ _ (Nat.le_refl _)
  · rw [hbase n]
    exact seedClusters_pairwise_disjoint simGE _ _ (Nat.le_refl _) (List.nodup_range n)
  · rw [cluster_stories]
    by_cases hlen : articles.length < 2
    · rw [if_pos hlen]
      match articles, hlen with
      | [], _ => rfl
      | [a], _ => rfl
    · rw [if_neg hlen]
      have hperm : ((clusterIndices articles.length simGE).flatten).Perm
          (List.range articles.length) := by
        rw [hbase articles.length]
        exact seedClusters_flatten_perm simGE _ _ (Nat.le_refl _)
      have hmem : ∀ c ∈ clusterIndices articles.length simGE,
          ∀ k ∈ c, k < articles.length := by
        intro c hc k hk
        have : k ∈ (clusterIndices articles.length simGE).flatten :=
          List.mem_flatten.mpr ⟨c, hc, hk⟩
        exact List.mem_range.mp (hperm.mem_iff.mp this)
      rw [List.length_flatten, List.map_map]
      have hmap : (clusterIndices articles.length simGE).map
            (List.length ∘ fun c => c.filterMap (articles.get? ·))
          = (clusterIndices articles.length simGE).map List.length := by
        refine List.map_congr_left (fun c hc => ?_)
        exact filterMap_get?_length articles c (hmem c hc)
      rw [hmap, ← List.length_flatten, hperm.length_eq, List.length_range]

/-- Claim C8: the clusterer assigns articles by the seed-only rule — the
visited-array loop equals the spec-side `seedClusters` recursion, in which
a later unassigned article joins a bucket exactly when it is similar to
the bucket's seed.  In particular (second conjunct) two articles both
similar to the seed but not to each other share its bucket, while
(third conjunct) an article similar only to a non-seed member of a bucket
is excluded from it and seeds its own. -/
theorem clusterer_seed_rule :
    (∀ (n : Nat) (simGE : Nat → Nat → Bool),
        clusterIndices n simGE = seedClusters simGE (List.range n))
    ∧ clusterIndices 3
        (fun i j => (i == 0 && (j == 1 || j == 2)) || (j == 0 && (i == 1 || i == 2)))
        = [[0, 1, 2]]
    ∧ clusterIndices 3
        (fun i j => (i == 0 && j == 1) || (j == 0 && i == 1)
          || (i == 1 && j == 2) || (j == 1 && i == 2))
        = [[0, 1], [2]] := by
  refine ⟨?_, by decide, by decide⟩
  intro n simGE
  rw [clusterIndices, clusterLoop_eq_seedClusters simGE n n 0 _ (by omega)]
  congr 1
  refine (List.filter_congr (fun k _ => ?_)).trans (List.filter_true _)
  simp

/-! ## Theorems: analysis-engine selection (claim C3) -/

/-- Claim C3 (code bug): selecting the mock engine by name does **not**
yield a working batch engine.  The Dispatcher calls
`analyze_article(engine_name='mock', batch_input_json=...)`, but
`mock_analysis_engine` only accepts `article_text`, so the keyword binding
raises `TypeError` and the caught exception becomes an `{"error": ...}`
dict — never a result list — so every batch is skipped.  Moreover even a
direct call returns a single flat `llm_*` dict whose sentiment depends on
the unseeded RNG (two streams give different outputs, refuting
determinism) and whose suggested category is drawn from
`CATEGORICAL_QUERIES.keys()`, which is not part of the configured
`OUTPUT_CATEGORIES` vocabulary. -/
theorem mock_engine_unusable :
    (∀ (pick : Nat → Nat) (s : String),
        analyze_article pick "mock" [("batch_input_json", s)]
          = .errDict "TypeError: unexpected keyword argument")
    ∧ ((mock_analysis_engine (fun _ => 0) "x").llm_sentiment = "Positive"
        ∧ (mock_analysis_engine (fun _ => 1) "x").llm_sentiment = "Neutral")
    ∧ (OUTPUT_CATEGORIES.contains
        ((mock_analysis_engine (fun _ => 0) "x").llm_suggested_category) = false) := by
  refine ⟨?_, ⟨by decide, by decide⟩, by decide⟩
  intro pick s
  rfl

/-! ## Theorems: record assembler and STAGE 5 output (claims C9, C1) -/

theorem makeRecord_core_id_independent (i1 i2 : Nat) (r : AnalysisResult)
    (bucket : List Article) :
    (makeRecord i1 r bucket).map StoryRecord.core
      = (makeRecord i2 r bucket).map StoryRecord.core := by
  unfold makeRecord
  rcases hsb : sortBucket bucket with _ | ⟨rep, tl⟩ <;>
    simp [StoryRecord.core]

theorem assembleLoop_id_independent (results : List (Nat × AnalysisResult))
    (ids1 ids2 : Nat → Nat) :
    ∀ (payloads : List StoryPayload),
      (assembleLoop results ids1 payloads).1 = (assembleLoop results ids2 payloads).1
      ∧ ((assembleLoop results ids1 payloads).2).map StoryRecord.core
          = ((assembleLoop results ids2 payloads).2).map StoryRecord.core := by
  intro payloads
  induction payloads with
  | nil => exact ⟨rfl, rfl⟩
  | cons p ps ih =>
      simp only [assembleLoop]
      rcases hres : dictGet? p.story_index results with _ | r
      · simp only [hres]
        exact ⟨by rw [ih.1], ih.2⟩
      · simp only [hres]
        have hcore := makeRecord_core_id_independent (ids1 p.story_index)
          (ids2 p.story_index) r p.original_bucket
        rcases hm1 : makeRecord (ids1 p.story_index) r p.original_bucket with _ | sr1 <;>
          rcases hm2 : makeRecord (ids2 p.story_index) r p.original_bucket with _ | sr2 <;>
          rw [hm1, hm2] at hcore <;> simp only [hm1, hm2]
        · exact ⟨by rw [ih.1], ih.2⟩
        · simp at hcore
        · simp at hcore
        · simp only [Option.map] at hcore
          injection hcore with hcore'
          exact ⟨by rw [ih.1], by simp only [List.map_cons, ih.2, hcore']⟩

/-- Claim C9: running the assembler twice on the same payloads and
`story_index → AnalysisResult` mapping — with two different supplies of
freshly generated story ids — yields the same `final_articles` and
`StoryRecord` sequences agreeing on every field except `story_id`
(`canonical_title`, `summary`, `sentiment`, `key_entities`,
`suggested_category`, `first_seen_at`, `article_ids`, `source_domains`,
`article_count`). -/
theorem assembler_idempotent_modulo_story_id :
    ∀ (results : List (Nat × AnalysisResult)) (ids1 ids2 : Nat → Nat)
      (payloads : List StoryPayload),
      (assembleStage results ids1 payloads).1 = (assembleStage results ids2 payloads).1
      ∧ ((assembleStage results ids1 payloads).2).map StoryRecord.core
          = ((assembleStage results ids2 payloads).2).map StoryRecord.core := by
  intro results ids1 ids2 payloads
  unfold assembleStage
  by_cases hres : results.isEmpty
  · simp [hres]
  · rw [if_neg hres, if_neg hres]
    exact assembleLoop_id_independent results ids1 ids2 payloads

/-- Claim C1 counterexample: a run that gathered one article (one
singleton cluster) but whose every story failed analysis (empty result
dict) produces **neither** output file — the `if all_llm_results:` guard
skips assembly and `if final_stories:` then skips both writes — refuting
"the article output file is produced even when the set of AnalysisResults
is empty". -/
theorem article_file_requires_story_cex :
    runStage45 [[⟨0, "t", "body", none, 0⟩]] [] (fun _ => 0) = (none, none)
    ∧ ([[(⟨0, "t", "body", none, 0⟩ : Article)]].flatten).length = 1 :=
  ⟨rfl, rfl⟩

/-- Claim C1 as amended: the article file and the story file are produced
together, exactly when at least one `StoryRecord` was assembled — not
whenever articles were gathered. -/
theorem output_files_iff_story_records :
    ∀ (clusters : List (List Article)) (results : List (Nat × AnalysisResult))
      (ids : Nat → Nat),
      (runStage45 clusters results ids).1.isSome
          = !(assembleStage results ids (buildPayloads clusters)).2.isEmpty
      ∧ (runStage45 clusters results ids).2.isSome
          = !(assembleStage results ids (buildPayloads clusters)).2.isEmpty := by
  intro clusters results ids
  have h : runStage45 clusters results ids
      = stage5Outputs (assembleStage results ids (buildPayloads clusters)).1
          (assembleStage results ids (buildPayloads clusters)).2 := rfl
  rw [h]
  generalize assembleStage results ids (buildPayloads clusters) = fafs
  rcases fafs with ⟨fa, fs⟩
  cases fs <;> simp [stage5Outputs]
